import Mathlib

/-!
Shallow embedding of the optimistic kanban synchronization engine of the
Flowboard screen (src/frontend/src/screens/FlowboardScreen.tsx): the
TaskState mappers, the drop-zone registry, the auto-scroll loop, the
per-key deduplicated optimistic move coordinator, and the bulk archive
operation.  Remote calls are modelled by explicit outcome parameters; the
asynchronous body of a move is split at its await boundaries into a
synchronous "begin" phase (precondition checks, optimistic apply, pending
lock) and a "settle" phase (commit or rollback once the remote call
resolves).
-/

namespace Flowboard

/-- The four UI-facing lifecycle states (type UIState in the source). -/
inductive UIState where
  | Exploring
  | Active
  | Reviewing
  | Complete
deriving DecidableEq, Repr

/-- The string literal of a UIState value, as used in template-string keys. -/
def uiName : UIState → String
  | .Exploring => "Exploring"
  | .Active    => "Active"
  | .Reviewing => "Reviewing"
  | .Complete  => "Complete"

/-- toUIState of the primary screen variant (lines 41-52): remote vocabulary
to UI state, with a default branch returning Exploring.  Remote values are
strings at runtime, so the domain is String. -/
def toUIState (s : String) : UIState :=
  if s = "Exploring" then .Exploring
  else if s = "Planning" then .Active
  else if s = "Doing" then .Reviewing
  else if s = "Done" then .Complete
  else if s = "Active" then .Active
  else if s = "Reviewing" then .Reviewing
  else if s = "Complete" then .Complete
  else .Exploring

/-- toBackendState (lines 53-60): UI state to remote vocabulary. -/
def toBackendState : UIState → String
  | .Exploring => "Exploring"
  | .Active    => "Planning"
  | .Reviewing => "Doing"
  | .Complete  => "Done"

/-- toUIState of the second screen variant (lines 582-594): the case for
"Done" falls through to the default branch, and the default returns
Complete, not Exploring. -/
def toUIState2 (s : String) : UIState :=
  if s = "Exploring" then .Exploring
  else if s = "Planning" then .Active
  else if s = "Doing" then .Reviewing
  else .Complete

/-- A UITask (lines 62-67): server-assigned id, title, optional notes, lifecycle
state. -/
structure UITask where
  id : String
  title : String
  notes : Option String := none
  state : UIState
deriving DecidableEq, Repr

/-- The dedup key of a move, exactly the template string of line 237. -/
def moveKey (taskId : String) (target : UIState) : String :=
  taskId ++ "-" ++ uiName target

/-- The lifecycle state the Board currently assigns to a task id: the state
of the first task found with that id, or none when no such task exists. -/
def stateOf (tasks : List UITask) (taskId : String) : Option UIState :=
  (tasks.find? fun t => decide (t.id = taskId)).map (·.state)

/-- Result of the synchronous prefix of moveTaskTo: the Board and pending
set after the precondition checks, the remote update calls issued so far
(as pairs of task id and remote state payload), whether the move was
accepted, and the captured original state for rollback. -/
structure BeginOut where
  tasks : List UITask
  pending : Finset String
  updateCalls : List (String × String)
  accepted : Bool
  original : Option UIState
deriving DecidableEq

/-- Synchronous prefix of moveTaskTo (lines 235-243): suppress when the key
is already pending, when no task has this id, or when the task is already
in the target state; otherwise add the pending key, optimistically rewrite
the Board, and issue the remote update call. -/
def moveTaskToBegin (tasks : List UITask) (pending : Finset String)
    (taskId : String) (target : UIState) : BeginOut :=
  if moveKey taskId target ∈ pending then ⟨tasks, pending, [], false, none⟩
  else
    match tasks.find? fun t => decide (t.id = taskId) with
    | none => ⟨tasks, pending, [], false, none⟩
    | some originalTask =>
      if originalTask.state = target then ⟨tasks, pending, [], false, none⟩
      else
        ⟨tasks.map fun t => if t.id = taskId then { t with state := target } else t,
         insert (moveKey taskId target) pending,
         [(taskId, toBackendState target)],
         true,
         some originalTask.state⟩

/-- Outcome of the awaited remote update call. -/
inductive RemoteOutcome where
  | success
  | failure
deriving DecidableEq, Repr

/-- Outcome of the awaited gamification notify call. -/
inductive HookOutcome where
  | ok
  | error
deriving DecidableEq, Repr

/-- Result of the asynchronous remainder of moveTaskTo: the settled Board
and pending set, the gamification hook calls made (uid, taskId, points),
console log lines, user-visible alerts, and the celebration flag. -/
structure SettleOut where
  tasks : List UITask
  pending : Finset String
  hookCalls : List (String × String × Nat)
  logs : List String
  alerts : List String
  celebrate : Bool
deriving DecidableEq

/-- Asynchronous remainder of moveTaskTo (lines 245-272): on success keep
the optimistic Board and, when the target is Complete and a user id is
present, call the completion hook once with (uid, taskId, 1) — a hook
failure is only logged; on failure revert the task to the captured
original state and alert the user; in both cases delete the pending key. -/
def moveTaskToSettle (tasks : List UITask) (pending : Finset String)
    (userId : Option String) (taskId : String) (target : UIState)
    (originalState : UIState) (remote : RemoteOutcome) (hook : HookOutcome) :
    SettleOut :=
  match remote with
  | .success =>
    match target, userId with
    | UIState.Complete, some uid =>
      match hook with
      | .ok =>
        ⟨tasks, pending.erase (moveKey taskId target), [(uid, taskId, 1)], [], [], true⟩
      | .error =>
        ⟨tasks, pending.erase (moveKey taskId target), [(uid, taskId, 1)],
         ["dopamine update error"], [], true⟩
    | _, _ => ⟨tasks, pending.erase (moveKey taskId target), [], [], [], false⟩
  | .failure =>
    ⟨tasks.map fun t => if t.id = taskId then { t with state := originalState } else t,
     pending.erase (moveKey taskId target), [], [], ["Move failed"], false⟩

/-- A registered drop zone rectangle: origin, width, height (absolute
screen coordinates, modelled over the rationals). -/
structure Rect where
  x : ℚ
  y : ℚ
  width : ℚ
  height : ℚ
deriving DecidableEq

/-- The containment test of checkDropZone (lines 112-116): inclusive bounds
on all four edges. -/
def containsPoint (zone : Rect) (px py : ℚ) : Bool :=
  decide (zone.x ≤ px) && decide (px ≤ zone.x + zone.width) &&
  decide (zone.y ≤ py) && decide (py ≤ zone.y + zone.height)

/-- checkDropZone (lines 110-121): scan the registered zones in insertion
order and return the column id of the first whose rectangle contains the
point, or none.  The registry Map is modelled as its entry list in
insertion order. -/
def checkDropZone (zones : List (String × Rect)) (px py : ℚ) : Option String :=
  (zones.find? fun e => containsPoint e.2 px py).map Prod.fst

/-- Direction of an auto-scroll loop. -/
inductive ScrollDir where
  | up
  | down
deriving DecidableEq, Repr

/-- The newScrollY computation of the scrollStep closure (lines 137-139):
the base increment is -15 up or 15 down, scaled by the speed multiplier
capped at 2, added to the current offset and clamped to
[0, contentHeight - 600] (the viewport height is the hard-coded 600). -/
def newScrollY (direction : ScrollDir) (speedMultiplier contentHeight scrollY : ℚ) : ℚ :=
  max 0 (min (contentHeight - 600)
    (scrollY + (if direction = ScrollDir.up then -15 else 15) * min speedMultiplier 2))

/-- One iteration of the scrollStep closure (lines 135-160): the frame
writes the clamped offset and reschedules itself only when that offset
actually moved in the direction of the loop, otherwise the loop stops.  Returns
the offset after the step and whether the loop continues. -/
def scrollStep (direction : ScrollDir) (speedMultiplier contentHeight scrollY : ℚ) :
    ℚ × Bool :=
  if newScrollY direction speedMultiplier contentHeight scrollY ≠ scrollY ∧
      ((direction = ScrollDir.up ∧
        newScrollY direction speedMultiplier contentHeight scrollY < scrollY) ∨
       (direction = ScrollDir.down ∧
        newScrollY direction speedMultiplier contentHeight scrollY > scrollY)) then
    (newScrollY direction speedMultiplier contentHeight scrollY, true)
  else
    (scrollY, false)

/-- The offset after running a sequence of scroll steps, each with its own
direction and speed multiplier, from a starting offset. -/
def runAutoScroll (contentHeight : ℚ) (steps : List (ScrollDir × ℚ)) (y : ℚ) : ℚ :=
  steps.foldl (fun acc s => (scrollStep s.1 s.2 contentHeight acc).1) y

/-- startAutoScroll (lines 132-134 and 162): when a loop handle already
exists the call returns immediately, whatever direction the running loop has;
otherwise a loop with the requested direction and multiplier is started.
The handle state is modelled as the parameters of the running loop. -/
def startAutoScroll (running : Option (ScrollDir × ℚ))
    (direction : ScrollDir) (speedMultiplier : ℚ) : Option (ScrollDir × ℚ) :=
  match running with
  | some loop => some loop
  | none => some (direction, speedMultiplier)

/-- stopAutoScroll (lines 165-174): cancel the running loop, if any. -/
def stopAutoScroll (_ : Option (ScrollDir × ℚ)) : Option (ScrollDir × ℚ) :=
  none

/-- Result of archiveAllComplete: the settled Board, the archive calls
issued (task ids), the ids actually archived remotely, whether a full
refresh happened, and user-visible alerts. -/
structure ArchiveOut where
  tasks : List UITask
  archiveCalls : List String
  remoteArchived : List String
  refreshed : Bool
  alerts : List String
deriving DecidableEq

/-- archiveAllComplete (lines 386-414, the confirmed path): collect the
tasks of the Complete column, optimistically remove them all from the
Board, issue one archive (isArchived update) call per task concurrently;
if every call succeeds, refresh; if any call fails, re-insert ALL of the
collected tasks (the catch appends toArchive wholesale) and alert.  The
per-task remote outcome is given by the fail predicate; calls whose own
outcome succeeded remain archived remotely even when a sibling fails. -/
def archiveAllComplete (tasks : List UITask) (fail : String → Bool) : ArchiveOut :=
  let toArchive := tasks.filter fun t => decide (t.state = UIState.Complete)
  if toArchive.isEmpty then ⟨tasks, [], [], false, []⟩
  else
    let remaining := tasks.filter fun t => !(toArchive.any fun a => decide (a.id = t.id))
    let calls := toArchive.map (·.id)
    let archived := (toArchive.filter fun t => !(fail t.id)).map (·.id)
    if toArchive.any fun t => fail t.id then
      ⟨remaining ++ toArchive, calls, archived, false, ["Archive failed"]⟩
    else
      ⟨remaining, calls, archived, true, []⟩

/-- Sample board entries used by concrete witnesses below. -/
def sampleTask : UITask := ⟨"t1", "a", none, UIState.Exploring⟩

/-- Sample board holding the single sample task. -/
def sampleBoard : List UITask := [sampleTask]

/-- Three tasks sitting in the Complete column. -/
def doneTask1 : UITask := ⟨"t1", "a", none, UIState.Complete⟩

/-- Second Complete-column task. -/
def doneTask2 : UITask := ⟨"t2", "b", none, UIState.Complete⟩

/-- Third Complete-column task. -/
def doneTask3 : UITask := ⟨"t3", "c", none, UIState.Complete⟩

/-- Remote outcome map failing exactly the archive call for task t2. -/
def failOnlyT2 : String → Bool := fun id => decide (id = "t2")

/-- Rectangle of zone A in the drop-resolution example. -/
def rectA : Rect := ⟨0, 0, 100, 100⟩

/-- Rectangle of zone B in the drop-resolution example. -/
def rectB : Rect := ⟨100, 0, 100, 100⟩

/-! ## Helper lemmas -/

/-- Mapping a task-level id-preserving function through the board commutes
with looking a task up by id. -/
theorem find?_map_of_id (f : UITask → UITask) (hf : ∀ a, (f a).id = a.id)
    (tasks : List UITask) (taskId : String) :
    (tasks.map f).find? (fun a => decide (a.id = taskId)) =
      (tasks.find? fun a => decide (a.id = taskId)).map f := by
  have hp : ((fun a : UITask => decide (a.id = taskId)) ∘ f) =
      (fun a : UITask => decide (a.id = taskId)) := by
    funext a
    simp [Function.comp, hf]
  rw [List.find?_map, hp]

/-- Looking up a task after the optimistic state rewrite of moveTaskTo
returns the rewritten image of the task found before. -/
theorem find?_setState (tasks : List UITask) (t : String) (Y : UIState) :
    (tasks.map fun a => if a.id = t then { a with state := Y } else a).find?
        (fun a => decide (a.id = t)) =
      (tasks.find? fun a => decide (a.id = t)).map
        (fun a => if a.id = t then { a with state := Y } else a) := by
  apply find?_map_of_id
  intro a
  by_cases h : a.id = t <;> simp [h]

/-- State that the Board assigns to an id after the optimistic rewrite of
that same id: the rewritten state whenever the id occurs at all. -/
theorem stateOf_setState (tasks : List UITask) (t : String) (Y : UIState)
    (a0 : UITask) (hf : tasks.find? (fun a => decide (a.id = t)) = some a0) :
    stateOf (tasks.map fun a => if a.id = t then { a with state := Y } else a) t =
      some Y := by
  have hid : a0.id = t := by
    have h1 := List.find?_some hf
    simpa using h1
  unfold stateOf
  rw [find?_setState, hf]
  simp [hid]

/-- An accepted moveTaskToBegin call fully characterized: the key was not
pending, a task with the id exists, its state differs from the target, and
the output applies the optimistic rewrite, inserts the key and issues
exactly the one update call. -/
theorem moveTaskToBegin_accepted (tasks : List UITask) (pending : Finset String)
    (t : String) (X : UIState)
    (hacc : (moveTaskToBegin tasks pending t X).accepted = true) :
    moveKey t X ∉ pending ∧
    ∃ a0, tasks.find? (fun a => decide (a.id = t)) = some a0 ∧ a0.state ≠ X ∧
      moveTaskToBegin tasks pending t X =
        ⟨tasks.map fun a => if a.id = t then { a with state := X } else a,
         insert (moveKey t X) pending, [(t, toBackendState X)], true,
         some a0.state⟩ := by
  unfold moveTaskToBegin at hacc
  by_cases hk : moveKey t X ∈ pending
  · simp [hk] at hacc
  · rw [if_neg hk] at hacc
    cases hfind : tasks.find? fun a => decide (a.id = t) with
    | none => rw [hfind] at hacc; simp at hacc
    | some a0 =>
      rw [hfind] at hacc
      by_cases hs : a0.state = X
      · simp [hs] at hacc
      · refine ⟨hk, a0, rfl, hs, ?_⟩
        unfold moveTaskToBegin
        rw [if_neg hk, hfind]
        simp [hs]

/-- The settle phase always deletes the pending key, whatever the outcome,
target and user. -/
theorem moveTaskToSettle_pending (tasks : List UITask) (pending : Finset String)
    (userId : Option String) (t : String) (X : UIState) (orig : UIState)
    (remote : RemoteOutcome) (hook : HookOutcome) :
    (moveTaskToSettle tasks pending userId t X orig remote hook).pending =
      pending.erase (moveKey t X) := by
  unfold moveTaskToSettle
  cases remote
  · cases X <;> cases userId <;> cases hook <;> rfl
  · rfl

/-- The settle phase leaves the Board untouched on success. -/
theorem moveTaskToSettle_success_tasks (tasks : List UITask) (pending : Finset String)
    (userId : Option String) (t : String) (X : UIState) (orig : UIState)
    (hook : HookOutcome) :
    (moveTaskToSettle tasks pending userId t X orig RemoteOutcome.success hook).tasks =
      tasks := by
  unfold moveTaskToSettle
  cases X <;> cases userId <;> cases hook <;> rfl

/-! ## Claim theorems -/

/-- C4: the state mappers satisfy the round-trip law: mapping any of the
four display states to the remote vocabulary and back yields the same
display state. -/
theorem state_mapper_round_trip : ∀ s : UIState, toUIState (toBackendState s) = s := by
  intro s
  cases s <;> rfl

/-- C10: a moveTaskTo call naming a task id absent from the Board returns
silently: no remote update call, no pending entry created, Board
unchanged. -/
theorem moveTaskTo_missing_task (tasks : List UITask) (pending : Finset String)
    (taskId : String) (target : UIState)
    (h : tasks.find? (fun a => decide (a.id = taskId)) = none) :
    moveTaskToBegin tasks pending taskId target = ⟨tasks, pending, [], false, none⟩ := by
  unfold moveTaskToBegin
  by_cases hk : moveKey taskId target ∈ pending
  · simp [hk]
  · simp [hk, h]

/-- Witness for C10 at a concrete input: a board with no task at all. -/
theorem moveTaskTo_missing_task_witness :
    moveTaskToBegin [] ∅ "ghost" UIState.Active = ⟨[], ∅, [], false, none⟩ :=
  moveTaskTo_missing_task [] ∅ "ghost" UIState.Active rfl

/-- C1: a requestMove whose key is already pending, or whose task already
sits in the target state, is suppressed as a pure no-op — no update call,
no new pending entry, Board unchanged; an accepted requestMove issues
exactly one update call and inserts its key into the pending set (which,
being a set, holds at most one entry per key), so a second identical
request issued before the first settles is suppressed and the pair issues
exactly one remote update call in total. -/
theorem moveTaskTo_dedup (tasks : List UITask) (pending : Finset String)
    (t : String) (X : UIState) :
    (moveKey t X ∈ pending →
      moveTaskToBegin tasks pending t X = ⟨tasks, pending, [], false, none⟩) ∧
    (∀ a0, tasks.find? (fun a => decide (a.id = t)) = some a0 → a0.state = X →
      moveTaskToBegin tasks pending t X = ⟨tasks, pending, [], false, none⟩) ∧
    (moveKey t X ∉ pending →
      ∀ a0, tasks.find? (fun a => decide (a.id = t)) = some a0 → a0.state ≠ X →
        moveTaskToBegin tasks pending t X =
          ⟨tasks.map fun a => if a.id = t then { a with state := X } else a,
           insert (moveKey t X) pending, [(t, toBackendState X)], true,
           some a0.state⟩ ∧
        moveTaskToBegin
            (tasks.map fun a => if a.id = t then { a with state := X } else a)
            (insert (moveKey t X) pending) t X =
          ⟨tasks.map fun a => if a.id = t then { a with state := X } else a,
           insert (moveKey t X) pending, [], false, none⟩) := by
  refine ⟨?_, ?_, ?_⟩
  · intro h
    unfold moveTaskToBegin
    rw [if_pos h]
  · intro a0 hf hs
    unfold moveTaskToBegin
    by_cases hk : moveKey t X ∈ pending
    · rw [if_pos hk]
    · rw [if_neg hk, hf]
      simp [hs]
  · intro hk a0 hf hs
    constructor
    · unfold moveTaskToBegin
      rw [if_neg hk, hf]
      simp [hs]
    · unfold moveTaskToBegin
      rw [if_pos (Finset.mem_insert_self _ _)]

/-- Witness for C1: on a one-task board in Exploring with nothing pending,
requestMove to Active is accepted with one update call, and the identical
request issued before settlement is suppressed with none. -/
theorem moveTaskTo_dedup_witness :
    moveTaskToBegin sampleBoard ∅ "t1" UIState.Active =
      ⟨sampleBoard.map fun a => if a.id = "t1" then { a with state := UIState.Active } else a,
       insert (moveKey "t1" UIState.Active) ∅, [("t1", toBackendState UIState.Active)],
       true, some UIState.Exploring⟩ ∧
    moveTaskToBegin
        (sampleBoard.map fun a => if a.id = "t1" then { a with state := UIState.Active } else a)
        (insert (moveKey "t1" UIState.Active) ∅) "t1" UIState.Active =
      ⟨sampleBoard.map fun a => if a.id = "t1" then { a with state := UIState.Active } else a,
       insert (moveKey "t1" UIState.Active) ∅, [], false, none⟩ :=
  (moveTaskTo_dedup sampleBoard ∅ "t1" UIState.Active).2.2
    (Finset.not_mem_empty _) sampleTask rfl (by decide)

/-- C2: when the remote update call of an accepted move fails, the settled Board
column assignment for the task after settlement equals its assignment
before the call began, and the pending key is removed on completion for
either remote outcome, returning the key to Idle. -/
theorem moveTaskTo_rollback (tasks : List UITask) (pending : Finset String)
    (userId : Option String) (t : String) (X : UIState) (hook : HookOutcome)
    (hacc : (moveTaskToBegin tasks pending t X).accepted = true) :
    (∀ orig, (moveTaskToBegin tasks pending t X).original = some orig →
      stateOf (moveTaskToSettle (moveTaskToBegin tasks pending t X).tasks
          (moveTaskToBegin tasks pending t X).pending userId t X orig
          RemoteOutcome.failure hook).tasks t = stateOf tasks t) ∧
    (∀ orig remote,
      moveKey t X ∉ (moveTaskToSettle (moveTaskToBegin tasks pending t X).tasks
          (moveTaskToBegin tasks pending t X).pending userId t X orig
          remote hook).pending) := by
  obtain ⟨hk, a0, hf, hs, heq⟩ := moveTaskToBegin_accepted tasks pending t X hacc
  have hid : a0.id = t := by
    have h1 := List.find?_some hf
    simpa using h1
  constructor
  · intro orig horig
    rw [heq] at horig
    have horig2 : orig = a0.state := by
      simpa using horig.symm
    subst horig2
    rw [heq]
    unfold moveTaskToSettle
    have hfmid := find?_setState tasks t X
    rw [hf] at hfmid
    have h2 := stateOf_setState
      (tasks.map fun a => if a.id = t then { a with state := X } else a) t a0.state
      ({ a0 with state := X }) (by rw [hfmid]; simp [hid])
    rw [h2]
    unfold stateOf
    rw [hf]
    simp
  · intro orig remote
    rw [heq]
    rw [moveTaskToSettle_pending]
    exact Finset.not_mem_erase _ _

/-- Witness for C2: the accepted move of the sample task to Active whose
remote call fails settles back to Exploring with the key unlocked. -/
theorem moveTaskTo_rollback_witness :
    stateOf (moveTaskToSettle (moveTaskToBegin sampleBoard ∅ "t1" UIState.Active).tasks
        (moveTaskToBegin sampleBoard ∅ "t1" UIState.Active).pending none "t1"
        UIState.Active UIState.Exploring RemoteOutcome.failure HookOutcome.ok).tasks "t1"
      = stateOf sampleBoard "t1" :=
  (moveTaskTo_rollback sampleBoard ∅ none "t1" UIState.Active HookOutcome.ok
    (by decide)).1 UIState.Exploring (by decide)

/-- C9: when an accepted move to Complete succeeds remotely for a
signed-in user, the completion hook is invoked exactly once with
(uid, taskId, 1); when that hook call fails, the failure is only logged —
no user-visible alert is raised and the move is not rolled back, so the
task stays in the Complete column. -/
theorem completion_hook_once (tasks : List UITask) (pending : Finset String)
    (uid t : String) (hook : HookOutcome)
    (hacc : (moveTaskToBegin tasks pending t UIState.Complete).accepted = true) :
    ∀ orig, (moveTaskToBegin tasks pending t UIState.Complete).original = some orig →
      (moveTaskToSettle (moveTaskToBegin tasks pending t UIState.Complete).tasks
          (moveTaskToBegin tasks pending t UIState.Complete).pending (some uid) t
          UIState.Complete orig RemoteOutcome.success hook).hookCalls = [(uid, t, 1)] ∧
      (hook = HookOutcome.error →
        (moveTaskToSettle (moveTaskToBegin tasks pending t UIState.Complete).tasks
            (moveTaskToBegin tasks pending t UIState.Complete).pending (some uid) t
            UIState.Complete orig RemoteOutcome.success hook).alerts = [] ∧
        (moveTaskToSettle (moveTaskToBegin tasks pending t UIState.Complete).tasks
            (moveTaskToBegin tasks pending t UIState.Complete).pending (some uid) t
            UIState.Complete orig RemoteOutcome.success hook).logs
          = ["dopamine update error"] ∧
        stateOf (moveTaskToSettle (moveTaskToBegin tasks pending t UIState.Complete).tasks
            (moveTaskToBegin tasks pending t UIState.Complete).pending (some uid) t
            UIState.Complete orig RemoteOutcome.success hook).tasks t
          = some UIState.Complete) := by
  obtain ⟨hk, a0, hf, hs, heq⟩ := moveTaskToBegin_accepted tasks pending t UIState.Complete hacc
  intro orig horig
  have hstate : stateOf (moveTaskToSettle (moveTaskToBegin tasks pending t UIState.Complete).tasks
      (moveTaskToBegin tasks pending t UIState.Complete).pending (some uid) t
      UIState.Complete orig RemoteOutcome.success hook).tasks t = some UIState.Complete := by
    rw [moveTaskToSettle_success_tasks, heq]
    exact stateOf_setState tasks t UIState.Complete a0 hf
  refine ⟨?_, fun he => ⟨?_, ?_, hstate⟩⟩
  · rw [heq]
    cases hook <;> rfl
  · subst he
    rw [heq]
    rfl
  · subst he
    rw [heq]
    rfl

/-- Witness for C9: the sample task moved to Complete for user u settles
with one hook call (u, t1, 1); the failing hook leaves no alert, one log
line, and the task in Complete. -/
theorem completion_hook_once_witness :
    (moveTaskToSettle (moveTaskToBegin sampleBoard ∅ "t1" UIState.Complete).tasks
        (moveTaskToBegin sampleBoard ∅ "t1" UIState.Complete).pending (some "u") "t1"
        UIState.Complete UIState.Exploring RemoteOutcome.success HookOutcome.error).hookCalls
      = [("u", "t1", 1)] ∧
    (moveTaskToSettle (moveTaskToBegin sampleBoard ∅ "t1" UIState.Complete).tasks
        (moveTaskToBegin sampleBoard ∅ "t1" UIState.Complete).pending (some "u") "t1"
        UIState.Complete UIState.Exploring RemoteOutcome.success HookOutcome.error).alerts
      = [] ∧
    (moveTaskToSettle (moveTaskToBegin sampleBoard ∅ "t1" UIState.Complete).tasks
        (moveTaskToBegin sampleBoard ∅ "t1" UIState.Complete).pending (some "u") "t1"
        UIState.Complete UIState.Exploring RemoteOutcome.success HookOutcome.error).logs
      = ["dopamine update error"] ∧
    stateOf (moveTaskToSettle (moveTaskToBegin sampleBoard ∅ "t1" UIState.Complete).tasks
        (moveTaskToBegin sampleBoard ∅ "t1" UIState.Complete).pending (some "u") "t1"
        UIState.Complete UIState.Exploring RemoteOutcome.success HookOutcome.error).tasks "t1"
      = some UIState.Complete := by
  have h := completion_hook_once sampleBoard ∅ "u" "t1" HookOutcome.error
    (by decide) UIState.Exploring (by decide)
  exact ⟨h.1, (h.2 rfl).1, (h.2 rfl).2.1, (h.2 rfl).2.2⟩

/-- C5 as stated is false for the second screen variant: its toUIState maps
the unknown remote value "Archived" to Complete, not to the first state
Exploring. -/
theorem toUIState2_unknown_not_exploring :
    toUIState2 "Archived" = UIState.Complete ∧
    UIState.Complete ≠ UIState.Exploring := by
  constructor
  · rfl
  · decide

/-- C5 (amended): both mapper variants are total with a safe default, but
the defaults differ — the primary toUIState maps any value outside its
seven known cases to the first state Exploring, while the second variant
maps any value outside its three positive cases (so also every unknown
value) to Complete. -/
theorem toUIState_default_total (s : String) :
    (s ≠ "Exploring" → s ≠ "Planning" → s ≠ "Doing" → s ≠ "Done" →
     s ≠ "Active" → s ≠ "Reviewing" → s ≠ "Complete" →
     toUIState s = UIState.Exploring) ∧
    (s ≠ "Exploring" → s ≠ "Planning" → s ≠ "Doing" →
     toUIState2 s = UIState.Complete) := by
  constructor
  · intro h1 h2 h3 h4 h5 h6 h7
    simp [toUIState, h1, h2, h3, h4, h5, h6, h7]
  · intro h1 h2 h3
    simp [toUIState2, h1, h2, h3]

/-- Witness for the amended C5 at the concrete unknown value "Archived". -/
theorem toUIState_default_total_witness :
    toUIState "Archived" = UIState.Exploring ∧
    toUIState2 "Archived" = UIState.Complete :=
  ⟨(toUIState_default_total "Archived").1 (by decide) (by decide) (by decide)
      (by decide) (by decide) (by decide) (by decide),
   (toUIState_default_total "Archived").2 (by decide) (by decide) (by decide)⟩

/-- C8 as stated is false: a startAutoScroll call made while a loop runs in
the opposite direction leaves the old loop running unchanged instead of
restarting in the new direction. -/
theorem startAutoScroll_opposite_not_restarted :
    startAutoScroll (some (ScrollDir.up, 1)) ScrollDir.down 1 = some (ScrollDir.up, 1) ∧
    some (ScrollDir.up, (1 : ℚ)) ≠ some (ScrollDir.down, (1 : ℚ)) := by
  constructor
  · rfl
  · simp

/-- C8 (amended): startAutoScroll is a no-op whenever any loop is already
running — same direction or opposite — and only starts a loop when none
is; a direction switch therefore needs an explicit stopAutoScroll first,
after which the start takes effect. -/
theorem startAutoScroll_noop_when_running (loop : ScrollDir × ℚ)
    (d : ScrollDir) (m : ℚ) :
    startAutoScroll (some loop) d m = some loop ∧
    startAutoScroll none d m = some (d, m) ∧
    startAutoScroll (stopAutoScroll (some loop)) d m = some (d, m) :=
  ⟨rfl, rfl, rfl⟩

/-- C6: checkDropZone returns the first registered zone, in registration
order, whose rectangle contains the point with inclusive bounds on all
four edges, and none when no zone contains it; with A:[0,0,100,100] and
B:[100,0,100,100] registered in that order, (50,50) resolves to A,
(150,50) to B and (250,50) to nothing. -/
theorem checkDropZone_first_match :
    (∀ (pre : List (String × Rect)) (cid : String) (z : Rect)
        (rest : List (String × Rect)) (px py : ℚ),
      (∀ e ∈ pre, containsPoint e.2 px py = false) →
      containsPoint z px py = true →
      checkDropZone (pre ++ (cid, z) :: rest) px py = some cid) ∧
    (∀ (zones : List (String × Rect)) (px py : ℚ),
      (∀ e ∈ zones, containsPoint e.2 px py = false) →
      checkDropZone zones px py = none) ∧
    (checkDropZone [("A", rectA), ("B", rectB)] 50 50 = some "A" ∧
     checkDropZone [("A", rectA), ("B", rectB)] 150 50 = some "B" ∧
     checkDropZone [("A", rectA), ("B", rectB)] 250 50 = none) := by
  refine ⟨?_, ?_, ?_, ?_, ?_⟩
  · intro pre cid z rest px py hpre hz
    induction pre with
    | nil =>
      unfold checkDropZone
      rw [List.nil_append,
        @List.find?_cons_of_pos (String × Rect)
          (fun e => containsPoint e.2 px py) (cid, z) rest hz]
      rfl
    | cons e es ih =>
      have he : containsPoint e.2 px py = false := hpre e (List.mem_cons_self e es)
      have hrest : ∀ x ∈ es, containsPoint x.2 px py = false := fun x hx =>
        hpre x (List.mem_cons_of_mem e hx)
      unfold checkDropZone at ih ⊢
      rw [List.cons_append,
        @List.find?_cons_of_neg (String × Rect)
          (fun x => containsPoint x.2 px py) e (es ++ (cid, z) :: rest) (by simp [he])]
      exact ih hrest
  · intro zones px py h
    unfold checkDropZone
    rw [List.find?_eq_none.mpr (fun x hx => by simp [h x hx])]
    rfl
  · norm_num [checkDropZone, containsPoint, rectA, rectB, List.find?]
  · norm_num [checkDropZone, containsPoint, rectA, rectB, List.find?]
  · norm_num [checkDropZone, containsPoint, rectA, rectB, List.find?]

/-- Witness for C6: resolving (150,50) against the registry holding A then
B lands in B, the first zone in order that contains the point. -/
theorem checkDropZone_first_match_witness :
    checkDropZone ([("A", rectA)] ++ ("B", rectB) :: []) 150 50 = some "B" :=
  checkDropZone_first_match.1 [("A", rectA)] "B" rectB [] 150 50
    (by norm_num [containsPoint, rectA]) (by norm_num [containsPoint, rectB])

/-- The clamped offset always lies within [0, contentHeight - 600] when
the content is at least one viewport tall. -/
theorem newScrollY_bounds (d : ScrollDir) (m ch y : ℚ) (hch : 600 ≤ ch) :
    0 ≤ newScrollY d m ch y ∧ newScrollY d m ch y ≤ ch - 600 :=
  ⟨le_max_left 0 _, max_le (by linarith) (min_le_left _ _)⟩

/-- One auto-scroll step keeps an in-bounds offset within
[0, contentHeight - 600], whatever the direction and multiplier. -/
theorem scrollStep_stays (d : ScrollDir) (m ch y : ℚ) (hch : 600 ≤ ch)
    (h0 : 0 ≤ y) (h1 : y ≤ ch - 600) :
    0 ≤ (scrollStep d m ch y).1 ∧ (scrollStep d m ch y).1 ≤ ch - 600 := by
  unfold scrollStep
  by_cases hc : newScrollY d m ch y ≠ y ∧
      ((d = ScrollDir.up ∧ newScrollY d m ch y < y) ∨
       (d = ScrollDir.down ∧ newScrollY d m ch y > y))
  · rw [if_pos hc]
    exact newScrollY_bounds d m ch y hch
  · rw [if_neg hc]
    exact ⟨h0, h1⟩

/-- Iterating auto-scroll steps preserves the offset bounds. -/
theorem runAutoScroll_stays (ch : ℚ) (hch : 600 ≤ ch)
    (steps : List (ScrollDir × ℚ)) :
    ∀ y, 0 ≤ y → y ≤ ch - 600 →
      0 ≤ runAutoScroll ch steps y ∧ runAutoScroll ch steps y ≤ ch - 600 := by
  induction steps with
  | nil => exact fun y h0 h1 => ⟨h0, h1⟩
  | cons s ss ih =>
    intro y h0 h1
    have hs := scrollStep_stays s.1 s.2 ch y hch h0 h1
    unfold runAutoScroll at ih ⊢
    rw [List.foldl_cons]
    exact ih _ hs.1 hs.2

/-- An upward step at offset 0 changes nothing and ends the loop. -/
theorem scrollStep_stop_up (m ch : ℚ) :
    scrollStep ScrollDir.up m ch 0 = (0, false) := by
  unfold scrollStep
  rw [if_neg]
  rintro ⟨hne, h | h⟩
  · exact absurd h.2 (not_lt.mpr (le_max_left 0 _))
  · exact absurd h.1 (by simp)

/-- A downward step at the bottom clamp changes nothing and ends the
loop. -/
theorem scrollStep_stop_down (m ch : ℚ) (hch : 600 ≤ ch) :
    scrollStep ScrollDir.down m ch (ch - 600) = (ch - 600, false) := by
  unfold scrollStep
  rw [if_neg]
  rintro ⟨hne, h | h⟩
  · exact absurd h.1 (by simp)
  · exact absurd h.2 (not_lt.mpr (max_le (by linarith) (min_le_left _ _)))

/-- C7: with a content height of at least the 600-unit viewport, any
sequence of auto-scroll steps from an in-bounds offset keeps the offset
within [0, contentHeight - 600], and a step taken at either clamp boundary
in its direction leaves the offset unchanged and stops the loop — no
overshoot, no oscillation. -/
theorem autoScroll_clamped (ch : ℚ) (hch : 600 ≤ ch) (y : ℚ)
    (h0 : 0 ≤ y) (h1 : y ≤ ch - 600) (steps : List (ScrollDir × ℚ)) :
    (0 ≤ runAutoScroll ch steps y ∧ runAutoScroll ch steps y ≤ ch - 600) ∧
    (∀ m, scrollStep ScrollDir.up m ch 0 = (0, false)) ∧
    (∀ m, scrollStep ScrollDir.down m ch (ch - 600) = (ch - 600, false)) :=
  ⟨runAutoScroll_stays ch hch steps y h0 h1,
   fun m => scrollStep_stop_up m ch,
   fun m => scrollStep_stop_down m ch hch⟩

/-- Witness for C7 at content height 1200, start offset 0, and a
down-then-up step sequence. -/
theorem autoScroll_clamped_witness :
    (0 ≤ runAutoScroll 1200 [(ScrollDir.down, 1), (ScrollDir.up, 2)] 0 ∧
     runAutoScroll 1200 [(ScrollDir.down, 1), (ScrollDir.up, 2)] 0 ≤ 1200 - 600) ∧
    (∀ m, scrollStep ScrollDir.up m 1200 0 = (0, false)) ∧
    (∀ m, scrollStep ScrollDir.down m 1200 (1200 - 600) = (1200 - 600, false)) :=
  autoScroll_clamped 1200 (by norm_num) 0 (by norm_num) (by norm_num)
    [(ScrollDir.down, 1), (ScrollDir.up, 2)]

/-- C3 as stated is false: archiving three Complete-column tasks where only
the call for t2 fails leaves t1 and t3 archived remotely, yet the Board
re-gains all three tasks — the catch re-inserts the whole batch, not only
the failed one. -/
theorem archiveAllComplete_counterexample :
    (archiveAllComplete [doneTask1, doneTask2, doneTask3] failOnlyT2).remoteArchived
      = ["t1", "t3"] ∧
    (archiveAllComplete [doneTask1, doneTask2, doneTask3] failOnlyT2).tasks
      = [doneTask1, doneTask2, doneTask3] ∧
    (archiveAllComplete [doneTask1, doneTask2, doneTask3] failOnlyT2).tasks
      ≠ [doneTask2] := by
  refine ⟨by decide, by decide, by decide⟩

/-- C3 (amended): when any archive call of the batch fails, every collected
Complete-column task is re-inserted into the Board — including the tasks
whose own calls succeeded, which stay archived only remotely; the remote
archive set holds exactly the ids whose calls succeeded, and no refresh
happens. -/
theorem archiveAllComplete_full_reinsert (tasks : List UITask)
    (fail : String → Bool)
    (hfail : ∃ a ∈ tasks.filter (fun u => decide (u.state = UIState.Complete)),
      fail a.id = true) :
    (∀ a ∈ tasks.filter (fun u => decide (u.state = UIState.Complete)),
      a ∈ (archiveAllComplete tasks fail).tasks) ∧
    (archiveAllComplete tasks fail).remoteArchived =
      ((tasks.filter fun u => decide (u.state = UIState.Complete)).filter
        (fun u => !(fail u.id))).map (·.id) ∧
    (archiveAllComplete tasks fail).refreshed = false := by
  obtain ⟨a, ha, hfa⟩ := hfail
  have hne : (tasks.filter fun u => decide (u.state = UIState.Complete)).isEmpty = false :=
    List.isEmpty_eq_false.mpr (List.ne_nil_of_mem ha)
  have hany : (tasks.filter fun u => decide (u.state = UIState.Complete)).any
      (fun u => fail u.id) = true := List.any_eq_true.mpr ⟨a, ha, hfa⟩
  simp only [archiveAllComplete, hne, hany, Bool.false_eq_true, if_false, if_true]
  exact ⟨fun a2 ha2 => List.mem_append_right _ ha2, by trivial, by trivial⟩

/-- Witness for the amended C3 at the three-task board where only the call for t2
fails. -/
theorem archiveAllComplete_full_reinsert_witness :
    (∀ a ∈ [doneTask1, doneTask2, doneTask3].filter
        (fun u => decide (u.state = UIState.Complete)),
      a ∈ (archiveAllComplete [doneTask1, doneTask2, doneTask3] failOnlyT2).tasks) ∧
    (archiveAllComplete [doneTask1, doneTask2, doneTask3] failOnlyT2).remoteArchived =
      (([doneTask1, doneTask2, doneTask3].filter
          fun u => decide (u.state = UIState.Complete)).filter
        (fun u => !(failOnlyT2 u.id))).map (·.id) ∧
    (archiveAllComplete [doneTask1, doneTask2, doneTask3] failOnlyT2).refreshed = false :=
  archiveAllComplete_full_reinsert [doneTask1, doneTask2, doneTask3] failOnlyT2
    (by decide)

end Flowboard
